import Mathlib

/-!
Shallow embedding of the client-side pull-subscriber runtime of a
publish/subscribe client library: the orchestrating `Subscriber` state
machine, the `Message` acknowledgment lifecycle, the batched ack/modAck
queues and the lease inventory, as described by the design
specification.  The orchestrating `subscriber.ts` module itself is not
among the provided sources (only its unit tests are), so every
definition below is modelled from the specification document, faithful
to its wording; each doc comment records what is missing and which part
of the specification it renders.
-/

/-- Modelled from the spec: the per-ackId outcome of an acknowledgment
RPC when exactly-once delivery is enabled (missing `subscriber.ts`
`AckResponses`).  Spec section 6: "per-ackId outcome drawn from
Success, Invalid, PermissionDenied, FailedPrecondition, Other". -/
inductive AckResponse where
  | Success
  | Invalid
  | PermissionDenied
  | FailedPrecondition
  | Other
deriving DecidableEq, Repr

/-- Modelled from the spec: spec section 7 classifies every non-Success
outcome (Invalid, PermissionDenied, FailedPrecondition, Other) as a
permanent per-message acknowledgment failure. -/
def AckResponse.isPermanentFailure : AckResponse → Bool
  | .Success => false
  | _ => true

/-- Modelled from the spec: the observable calls the `Subscriber`
(missing `subscriber.ts`) makes while ingesting one raw received
message — a receipt modAck (fire-and-forget or response-returning), a
`LeaseManager.add` lease, delivery to user code, the discard hook, and
the shutdown-notification hook.  Spec sections 2, 4.4, 5 and 6. -/
inductive SubEvent where
  | modAck (ackId : String) (deadline : ℚ) (withResponse : Bool)
  | leaseAdd (ackId : String)
  | deliver (ackId : String)
  | discard (ackId : String)
  | shutdownHook (ackId : String)
deriving DecidableEq, Repr

/-- The ackId an ingest event refers to. -/
def SubEvent.ackId : SubEvent → String
  | .modAck i _ _ => i
  | .leaseAdd i => i
  | .deliver i => i
  | .discard i => i
  | .shutdownHook i => i

/-- Whether an ingest event refers to the given ackId. -/
def hasAckId (i : String) (e : SubEvent) : Bool :=
  e.ackId == i

/-- Modelled from the spec: processing of one raw received message by
the missing `Subscriber._onData` of `subscriber.ts`.  Spec section 4.4
("ingest"): exactly-once disabled — fire-and-forget receipt modAck at
the current ackDeadline, then `LeaseManager.add` (after which the
message flows to user code, spec section 2); exactly-once enabled —
response-returning receipt modAck first, on Success `LeaseManager.add`,
on permanent failure discard without leasing, never delivered.  Spec
section 5 (cancellation): once closed state is set an arriving message
is force-nacked (a modAck with deadline 0), never added to inventory,
with the shutdown-notification hook fired. -/
def ingestOne (isOpen eo : Bool) (ackDeadline : ℚ)
    (outcome : String → AckResponse) (i : String) : List SubEvent :=
  if isOpen = false then
    [SubEvent.modAck i 0 false, SubEvent.shutdownHook i]
  else if eo then
    if outcome i = AckResponse.Success then
      [SubEvent.modAck i ackDeadline true, SubEvent.leaseAdd i,
        SubEvent.deliver i]
    else
      [SubEvent.modAck i ackDeadline true, SubEvent.discard i]
  else
    [SubEvent.modAck i ackDeadline false, SubEvent.leaseAdd i,
      SubEvent.deliver i]

/-- Modelled from the spec: the missing `Subscriber._onData` of
`subscriber.ts` processes each entry of a pull-response batch in order
(spec section 4.4, "for each raw received entry"); `outcome` is the
broker's per-ackId receipt-modAck result used when exactly-once is
enabled. -/
def Subscriber._onData (isOpen eo : Bool) (ackDeadline : ℚ)
    (outcome : String → AckResponse) (batch : List String) : List SubEvent :=
  batch.flatMap (ingestOne isOpen eo ackDeadline outcome)

theorem filter_ingestOne_self (o eo : Bool) (d : ℚ)
    (f : String → AckResponse) (i : String) :
    (ingestOne o eo d f i).filter (hasAckId i) = ingestOne o eo d f i := by
  unfold ingestOne
  split_ifs <;> simp [hasAckId, SubEvent.ackId]

theorem filter_ingestOne_ne (o eo : Bool) (d : ℚ)
    (f : String → AckResponse) (i j : String) (h : j ≠ i) :
    (ingestOne o eo d f j).filter (hasAckId i) = [] := by
  unfold ingestOne
  split_ifs <;> simp [hasAckId, SubEvent.ackId, h]

theorem filter_onData_of_not_mem (o eo : Bool) (d : ℚ)
    (f : String → AckResponse) (i : String) (batch : List String)
    (h : i ∉ batch) :
    (Subscriber._onData o eo d f batch).filter (hasAckId i) = [] := by
  induction batch with
  | nil => simp [Subscriber._onData]
  | cons j rest ih =>
    have hj : j ≠ i := fun e => h (e ▸ List.mem_cons_self j rest)
    have hr : i ∉ rest := fun hr => h (List.mem_cons_of_mem j hr)
    simp only [Subscriber._onData, List.flatMap_cons, List.filter_append]
    rw [filter_ingestOne_ne o eo d f i j hj]
    simpa [Subscriber._onData] using ih hr

theorem filter_onData_of_mem (o eo : Bool) (d : ℚ)
    (f : String → AckResponse) (i : String) (batch : List String)
    (hnd : batch.Nodup) (hm : i ∈ batch) :
    (Subscriber._onData o eo d f batch).filter (hasAckId i)
      = ingestOne o eo d f i := by
  induction batch with
  | nil => cases hm
  | cons j rest ih =>
    rcases List.mem_cons.mp hm with rfl | hm2
    · have hnr : i ∉ rest := (List.nodup_cons.mp hnd).1
      have hz := filter_onData_of_not_mem o eo d f i rest hnr
      simp only [Subscriber._onData] at hz
      simp only [Subscriber._onData, List.flatMap_cons, List.filter_append]
      rw [filter_ingestOne_self, hz, List.append_nil]
    · have hj : j ≠ i := by
        rintro rfl
        exact (List.nodup_cons.mp hnd).1 hm2
      have hz := ih (List.nodup_cons.mp hnd).2 hm2
      simp only [Subscriber._onData] at hz
      simp only [Subscriber._onData, List.flatMap_cons, List.filter_append]
      rw [filter_ingestOne_ne o eo d f i j hj, List.nil_append, hz]

theorem mem_onData_iff (o eo : Bool) (d : ℚ)
    (f : String → AckResponse) (i : String) (batch : List String)
    (hnd : batch.Nodup) (hm : i ∈ batch) (e : SubEvent)
    (he : SubEvent.ackId e = i) :
    e ∈ Subscriber._onData o eo d f batch ↔ e ∈ ingestOne o eo d f i := by
  rw [← filter_onData_of_mem o eo d f i batch hnd hm]
  constructor
  · intro h
    exact List.mem_filter.mpr ⟨h, by simp [hasAckId, he]⟩
  · intro h
    exact (List.mem_filter.mp h).1

/-- Whether an ingest event is a receipt modAck for the given ackId. -/
def isReceiptModAck (i : String) : SubEvent → Bool
  | .modAck j _ _ => j == i
  | _ => false

/-- Whether an ingest event is a lease-inventory add for the given ackId. -/
def isLeaseAddFor (i : String) : SubEvent → Bool
  | .leaseAdd j => j == i
  | _ => false

theorem countP_onData_filtered (o eo : Bool) (d : ℚ)
    (f : String → AckResponse) (i : String) (batch : List String)
    (p : SubEvent → Bool) (hp : ∀ e, p e = true → hasAckId i e = true) :
    (Subscriber._onData o eo d f batch).countP p
      = ((Subscriber._onData o eo d f batch).filter (hasAckId i)).countP p := by
  rw [List.countP_filter]
  refine (List.countP_congr ?_).symm
  intro e _
  constructor
  · intro h
    have hb := Bool.and_elim_left h
    exact hb
  · intro h
    exact Bool.and_intro h (hp e h)

/-- C1: while exactly-once delivery is enabled and the subscriber is
open, every message of an ingested batch first receives a
response-returning receipt modAck; it is leased (added to the
LeaseManager) if and only if that modAck resolves Success, and on a
permanent failure it is discarded via the discard hook, never leased
and never delivered to user code. -/
theorem exactlyOnce_receipt_leases_iff_success (d : ℚ)
    (f : String → AckResponse) (batch : List String) (i : String)
    (hnd : batch.Nodup) (hm : i ∈ batch) :
    ((Subscriber._onData true true d f batch).filter (hasAckId i)
        = if f i = AckResponse.Success then
            [SubEvent.modAck i d true, SubEvent.leaseAdd i, SubEvent.deliver i]
          else
            [SubEvent.modAck i d true, SubEvent.discard i])
    ∧ (SubEvent.leaseAdd i ∈ Subscriber._onData true true d f batch
        ↔ f i = AckResponse.Success)
    ∧ (f i ≠ AckResponse.Success →
        SubEvent.discard i ∈ Subscriber._onData true true d f batch
        ∧ SubEvent.leaseAdd i ∉ Subscriber._onData true true d f batch
        ∧ SubEvent.deliver i ∉ Subscriber._onData true true d f batch) := by
  have hfil := filter_onData_of_mem true true d f i batch hnd hm
  have hing : ingestOne true true d f i
      = if f i = AckResponse.Success then
          [SubEvent.modAck i d true, SubEvent.leaseAdd i, SubEvent.deliver i]
        else
          [SubEvent.modAck i d true, SubEvent.discard i] := by
    simp [ingestOne]
  refine ⟨by rw [hfil, hing], ?_, ?_⟩
  · rw [mem_onData_iff true true d f i batch hnd hm (SubEvent.leaseAdd i) rfl,
      hing]
    by_cases hfi : f i = AckResponse.Success <;> simp [hfi]
  · intro hfi
    refine ⟨?_, ?_, ?_⟩
    · rw [mem_onData_iff true true d f i batch hnd hm (SubEvent.discard i) rfl,
        hing]
      simp [hfi]
    · rw [mem_onData_iff true true d f i batch hnd hm (SubEvent.leaseAdd i) rfl,
        hing]
      simp [hfi]
    · rw [mem_onData_iff true true d f i batch hnd hm (SubEvent.deliver i) rfl,
        hing]
      simp [hfi]

theorem exactlyOnce_receipt_leases_iff_success_witness :
    (["a"] : List String).Nodup ∧ ("a" : String) ∈ (["a"] : List String) ∧
    (((Subscriber._onData true true 10 (fun _ => AckResponse.Invalid)
          ["a"]).filter (hasAckId "a")
        = if (fun _ => AckResponse.Invalid) "a" = AckResponse.Success then
            [SubEvent.modAck "a" 10 true, SubEvent.leaseAdd "a",
              SubEvent.deliver "a"]
          else
            [SubEvent.modAck "a" 10 true, SubEvent.discard "a"])
    ∧ (SubEvent.leaseAdd "a"
          ∈ Subscriber._onData true true 10 (fun _ => AckResponse.Invalid) ["a"]
        ↔ (fun _ => AckResponse.Invalid) "a" = AckResponse.Success)
    ∧ ((fun _ => AckResponse.Invalid) "a" ≠ AckResponse.Success →
        SubEvent.discard "a"
            ∈ Subscriber._onData true true 10 (fun _ => AckResponse.Invalid) ["a"]
        ∧ SubEvent.leaseAdd "a"
            ∉ Subscriber._onData true true 10 (fun _ => AckResponse.Invalid) ["a"]
        ∧ SubEvent.deliver "a"
            ∉ Subscriber._onData true true 10 (fun _ => AckResponse.Invalid) ["a"])) :=
  ⟨by decide, by decide,
    exactlyOnce_receipt_leases_iff_success 10 (fun _ => AckResponse.Invalid)
      ["a"] "a" (by decide) (by decide)⟩

/-- C5: every message delivered by the stream after close() has been
called (closed state set) is routed through nack — a modAck with
deadline 0 — with the shutdown hook fired, and is never added to the
LeaseManager inventory. -/
theorem nack_after_close_never_leased (eo : Bool) (d : ℚ)
    (f : String → AckResponse) (batch : List String) (i : String)
    (hnd : batch.Nodup) (hm : i ∈ batch) :
    ((Subscriber._onData false eo d f batch).filter (hasAckId i)
        = [SubEvent.modAck i 0 false, SubEvent.shutdownHook i])
    ∧ SubEvent.leaseAdd i ∉ Subscriber._onData false eo d f batch := by
  have hfil := filter_onData_of_mem false eo d f i batch hnd hm
  have hing : ingestOne false eo d f i
      = [SubEvent.modAck i 0 false, SubEvent.shutdownHook i] := by
    simp [ingestOne]
  refine ⟨by rw [hfil, hing], ?_⟩
  rw [mem_onData_iff false eo d f i batch hnd hm (SubEvent.leaseAdd i) rfl,
    hing]
  simp

theorem nack_after_close_never_leased_witness :
    (["a"] : List String).Nodup ∧ ("a" : String) ∈ (["a"] : List String) ∧
    (((Subscriber._onData false false 10 (fun _ => AckResponse.Success)
          ["a"]).filter (hasAckId "a")
        = [SubEvent.modAck "a" 0 false, SubEvent.shutdownHook "a"])
    ∧ SubEvent.leaseAdd "a"
        ∉ Subscriber._onData false false 10 (fun _ => AckResponse.Success) ["a"]) :=
  ⟨by decide, by decide,
    nack_after_close_never_leased false 10 (fun _ => AckResponse.Success)
      ["a"] "a" (by decide) (by decide)⟩

/-- C6: while exactly-once delivery is disabled and the subscriber is
open, every message of an ingested batch receives exactly one
fire-and-forget receipt modAck at the current ackDeadline and exactly
one LeaseManager.add call. -/
theorem receipt_modAck_and_lease_once (d : ℚ)
    (f : String → AckResponse) (batch : List String) (i : String)
    (hnd : batch.Nodup) (hm : i ∈ batch) :
    ((Subscriber._onData true false d f batch).filter (hasAckId i)
        = [SubEvent.modAck i d false, SubEvent.leaseAdd i, SubEvent.deliver i])
    ∧ (Subscriber._onData true false d f batch).countP (isReceiptModAck i) = 1
    ∧ (Subscriber._onData true false d f batch).countP (isLeaseAddFor i) = 1 := by
  have hfil := filter_onData_of_mem true false d f i batch hnd hm
  have hing : ingestOne true false d f i
      = [SubEvent.modAck i d false, SubEvent.leaseAdd i, SubEvent.deliver i] := by
    simp [ingestOne]
  rw [hing] at hfil
  refine ⟨hfil, ?_, ?_⟩
  · have hp1 : ∀ e, isReceiptModAck i e = true → hasAckId i e = true := by
      intro e he
      cases e <;> simp_all [isReceiptModAck, hasAckId, SubEvent.ackId]
    rw [countP_onData_filtered true false d f i batch (isReceiptModAck i) hp1,
      hfil]
    simp [isReceiptModAck]
  · have hp2 : ∀ e, isLeaseAddFor i e = true → hasAckId i e = true := by
      intro e he
      cases e <;> simp_all [isLeaseAddFor, hasAckId, SubEvent.ackId]
    rw [countP_onData_filtered true false d f i batch (isLeaseAddFor i) hp2,
      hfil]
    simp [isLeaseAddFor]

theorem receipt_modAck_and_lease_once_witness :
    (["a"] : List String).Nodup ∧ ("a" : String) ∈ (["a"] : List String) ∧
    (((Subscriber._onData true false 10 (fun _ => AckResponse.Success)
          ["a"]).filter (hasAckId "a")
        = [SubEvent.modAck "a" 10 false, SubEvent.leaseAdd "a",
            SubEvent.deliver "a"])
    ∧ (Subscriber._onData true false 10 (fun _ => AckResponse.Success)
          ["a"]).countP (isReceiptModAck "a") = 1
    ∧ (Subscriber._onData true false 10 (fun _ => AckResponse.Success)
          ["a"]).countP (isLeaseAddFor "a") = 1) :=
  ⟨by decide, by decide,
    receipt_modAck_and_lease_once 10 (fun _ => AckResponse.Success)
      ["a"] "a" (by decide) (by decide)⟩

/-- Modelled from the spec: the ack-deadline configuration of the missing
`Subscriber` of `subscriber.ts` — optional user-specified minimum and
maximum ack-deadline bounds (seconds) and the subscription's
exactlyOnceDeliveryEnabled property (spec sections 3 and 4.4). -/
structure AckConfig where
  minAckDeadline : Option ℚ
  maxAckDeadline : Option ℚ
  exactlyOnceDeliveryEnabled : Bool

/-- Modelled from the spec (section 4.4): `effectiveMinBound` is the
user-specified minAckDeadline, except that when exactlyOnceDeliveryEnabled
is set and the user has not explicitly overridden the minimum, the floor
is raised to 60 seconds; with neither an explicit minimum nor exactly-once
no floor applies (0). -/
def effectiveMinBound (c : AckConfig) : ℚ :=
  match c.minAckDeadline with
  | some m => m
  | none => if c.exactlyOnceDeliveryEnabled then 60 else 0

/-- Modelled from the spec (section 4.4): clamp a 99th-percentile latency
estimate between `effectiveMinBound` and the optional maxAckDeadline. -/
def clampAckDeadline (c : AckConfig) (v : ℚ) : ℚ :=
  match c.maxAckDeadline with
  | some hi => min (max v (effectiveMinBound c)) hi
  | none => max v (effectiveMinBound c)

/-- Modelled from the spec: the ack-relevant state of the missing
`Subscriber` — the ack-latency histogram's recorded samples (seconds,
spec section 4.1) and the current ackDeadline (seconds). -/
structure SubAckState where
  latencies : List ℚ
  ackDeadline : ℚ

/-- Modelled from the spec (sections 4.4 and 5): the missing
`Subscriber.ack` of `subscriber.ts` synchronously records
`(now - message.received) / 1000` seconds into the ack-latency histogram
and recomputes ackDeadline as the histogram's 99th percentile clamped by
`clampAckDeadline`.  The histogram's percentile estimator (a deterministic
function of the samples held, spec section 4.1) is the parameter
`percentile99`. -/
def Subscriber.ack (c : AckConfig) (percentile99 : List ℚ → ℚ)
    (now received : ℚ) (st : SubAckState) : SubAckState :=
  let hist := st.latencies ++ [(now - received) / 1000]
  { latencies := hist
    ackDeadline := clampAckDeadline c (percentile99 hist) }

/-- C2: every `ack(message)` call records `(now - message.received)/1000`
seconds into the ack-latency histogram and recomputes ackDeadline as the
histogram's 99th percentile clamped to the interval from minAckDeadline
to maxAckDeadline; in particular with maxAckDeadline = 60 a percentile of
598 yields ackDeadline = 60. -/
theorem ack_records_latency_and_clamps (c : AckConfig)
    (percentile99 : List ℚ → ℚ) (now received : ℚ) (st : SubAckState) :
    ((Subscriber.ack c percentile99 now received st).latencies
        = st.latencies ++ [(now - received) / 1000])
    ∧ (∀ lo hi, c.minAckDeadline = some lo → c.maxAckDeadline = some hi →
        (Subscriber.ack c percentile99 now received st).ackDeadline
          = min (max (percentile99
              (st.latencies ++ [(now - received) / 1000])) lo) hi)
    ∧ (∀ p2 : List ℚ → ℚ, (∀ l, p2 l = 598) →
        (Subscriber.ack ⟨none, some 60, false⟩ p2 now received st).ackDeadline
          = 60) := by
  refine ⟨rfl, ?_, ?_⟩
  · intro lo hi hlo hhi
    simp [Subscriber.ack, clampAckDeadline, effectiveMinBound, hlo, hhi]
  · intro p2 hp2
    simp only [Subscriber.ack, clampAckDeadline, effectiveMinBound, hp2]
    norm_num

theorem ack_records_latency_and_clamps_witness :
    ((⟨some 5, some 60, false⟩ : AckConfig).minAckDeadline = some 5)
    ∧ ((⟨some 5, some 60, false⟩ : AckConfig).maxAckDeadline = some 60)
    ∧ (Subscriber.ack ⟨some 5, some 60, false⟩ (fun _ => 598) 2000 1000
          ⟨[], 10⟩).ackDeadline
        = min (max ((fun _ => (598 : ℚ))
            (([] : List ℚ) ++ [((2000 : ℚ) - 1000) / 1000])) 5) 60 :=
  ⟨rfl, rfl,
    (ack_records_latency_and_clamps ⟨some 5, some 60, false⟩ (fun _ => 598)
        2000 1000 ⟨[], 10⟩).2.1 5 60 rfl rfl⟩

/-- C3: when exactlyOnceDeliveryEnabled is set and no explicit
minAckDeadline is given, the effective minimum ack deadline is 60 seconds,
so an ack whose histogram 99th percentile is at most 60 drives ackDeadline
to 60; an explicit minAckDeadline overrides the 60-second floor and is
used instead. -/
theorem exactlyOnce_default_min_60 (c : AckConfig)
    (percentile99 : List ℚ → ℚ) (now received : ℚ) (st : SubAckState) :
    (c.exactlyOnceDeliveryEnabled = true → c.minAckDeadline = none →
      effectiveMinBound c = 60
      ∧ (c.maxAckDeadline = none →
          percentile99 (st.latencies ++ [(now - received) / 1000]) ≤ 60 →
          (Subscriber.ack c percentile99 now received st).ackDeadline = 60))
    ∧ (∀ m, c.minAckDeadline = some m →
        effectiveMinBound c = m
        ∧ (c.maxAckDeadline = none →
            (Subscriber.ack c percentile99 now received st).ackDeadline
              = max (percentile99
                  (st.latencies ++ [(now - received) / 1000])) m)) := by
  constructor
  · intro heo hmin
    have hbound : effectiveMinBound c = 60 := by
      simp [effectiveMinBound, hmin, heo]
    refine ⟨hbound, ?_⟩
    intro hmax hle
    simp only [Subscriber.ack, clampAckDeadline, hmax, hbound]
    exact max_eq_right hle
  · intro m hmin
    have hbound : effectiveMinBound c = m := by
      simp [effectiveMinBound, hmin]
    refine ⟨hbound, ?_⟩
    intro hmax
    simp [Subscriber.ack, clampAckDeadline, hmax, hbound]

theorem exactlyOnce_default_min_60_witness :
    ((⟨none, none, true⟩ : AckConfig).exactlyOnceDeliveryEnabled = true)
    ∧ (effectiveMinBound ⟨none, none, true⟩ = 60)
    ∧ (Subscriber.ack ⟨none, none, true⟩ (fun _ => 10) 2000 1000
          ⟨[], 10⟩).ackDeadline = 60 :=
  ⟨rfl,
    ((exactlyOnce_default_min_60 ⟨none, none, true⟩ (fun _ => 10) 2000 1000
        ⟨[], 10⟩).1 rfl rfl).1,
    ((exactlyOnce_default_min_60 ⟨none, none, true⟩ (fun _ => 10) 2000 1000
        ⟨[], 10⟩).1 rfl rfl).2 rfl (by decide)⟩

/-- Modelled from the spec: the pending and in-flight request counts of
one of the two batching queues of the missing `message-queues.ts`, as
observed by `Subscriber.close` (spec sections 4.3 and 4.4). -/
structure QueueState where
  numPendingRequests : ℕ
  numInFlightRequests : ℕ

/-- Modelled from the spec: the observable steps of the missing
`Subscriber.close` of `subscriber.ts`, in completion order
(spec section 4.4, "close()"). -/
inductive CloseEvent where
  | setClosed
  | streamDestroy
  | ackOnFlush
  | ackFlush
  | ackOnDrain
  | modAckOnFlush
  | modAckFlush
  | modAckOnDrain
  | inventoryClear
  | nackMsg (ackId : String)
  | shutdownNotify (ackId : String)
  | emitClose
deriving DecidableEq, Repr

/-- Modelled from the spec (section 4.4, "close()"): idempotent no-op if
not open; otherwise set closed state first, stop the MessageStream, then
for each of AckQueue and ModAckQueue await `onFlush` then `flush` if it
has pending entries and await `onDrain` if it has in-flight entries; then
`LeaseManager.clear` and a deadline-0 modAck (nack) for every message
returned, invoking the shutdown-notification hook once per message;
finally emit the close signal.  The returned trace lists everything
completed before `close()` resolves. -/
def Subscriber.close (isOpen : Bool) (ackQ modAckQ : QueueState)
    (leased : List String) : List CloseEvent :=
  if isOpen = false then []
  else
    [CloseEvent.setClosed, CloseEvent.streamDestroy]
      ++ (if 0 < ackQ.numPendingRequests then
            [CloseEvent.ackOnFlush, CloseEvent.ackFlush] else [])
      ++ (if 0 < ackQ.numInFlightRequests then
            [CloseEvent.ackOnDrain] else [])
      ++ (if 0 < modAckQ.numPendingRequests then
            [CloseEvent.modAckOnFlush, CloseEvent.modAckFlush] else [])
      ++ (if 0 < modAckQ.numInFlightRequests then
            [CloseEvent.modAckOnDrain] else [])
      ++ [CloseEvent.inventoryClear]
      ++ leased.flatMap
          (fun i => [CloseEvent.nackMsg i, CloseEvent.shutdownNotify i])
      ++ [CloseEvent.emitClose]

theorem count_nackList_of_ne (leased : List String) (e : CloseEvent)
    (h1 : ∀ j, e ≠ CloseEvent.nackMsg j)
    (h2 : ∀ j, e ≠ CloseEvent.shutdownNotify j) :
    (leased.flatMap
        (fun i => [CloseEvent.nackMsg i, CloseEvent.shutdownNotify i])).count e
      = 0 := by
  rw [List.count_eq_zero]
  intro hmem
  rcases List.mem_flatMap.mp hmem with ⟨j, _, hj⟩
  simp only [List.mem_cons, List.not_mem_nil, or_false] at hj
  rcases hj with hj | hj
  · exact h1 j hj
  · exact h2 j hj

theorem count_nackList_not_mem (leased : List String) (i : String)
    (h : i ∉ leased) :
    (leased.flatMap
        (fun j => [CloseEvent.nackMsg j, CloseEvent.shutdownNotify j])).count
        (CloseEvent.nackMsg i) = 0
    ∧ (leased.flatMap
        (fun j => [CloseEvent.nackMsg j, CloseEvent.shutdownNotify j])).count
        (CloseEvent.shutdownNotify i) = 0 := by
  constructor
  · rw [List.count_eq_zero]
    intro hmem
    rcases List.mem_flatMap.mp hmem with ⟨j, hjm, hj⟩
    simp only [List.mem_cons, List.not_mem_nil, or_false] at hj
    rcases hj with hj | hj
    · cases hj
      exact h hjm
    · cases hj
  · rw [List.count_eq_zero]
    intro hmem
    rcases List.mem_flatMap.mp hmem with ⟨j, hjm, hj⟩
    simp only [List.mem_cons, List.not_mem_nil, or_false] at hj
    rcases hj with hj | hj
    · cases hj
    · cases hj
      exact h hjm

theorem count_nackList_mem (leased : List String) (i : String)
    (hnd : leased.Nodup) (hm : i ∈ leased) :
    (leased.flatMap
        (fun j => [CloseEvent.nackMsg j, CloseEvent.shutdownNotify j])).count
        (CloseEvent.nackMsg i) = 1
    ∧ (leased.flatMap
        (fun j => [CloseEvent.nackMsg j, CloseEvent.shutdownNotify j])).count
        (CloseEvent.shutdownNotify i) = 1 := by
  induction leased with
  | nil => cases hm
  | cons j rest ih =>
    rcases List.mem_cons.mp hm with rfl | hm2
    · have hnr : i ∉ rest := (List.nodup_cons.mp hnd).1
      have hz := count_nackList_not_mem rest i hnr
      simp only [List.flatMap_cons, List.count_append, hz.1, hz.2]
      constructor <;> simp [List.count_cons]
    · have hj : j ≠ i := by
        rintro rfl
        exact (List.nodup_cons.mp hnd).1 hm2
      have hz := ih (List.nodup_cons.mp hnd).2 hm2
      simp only [List.flatMap_cons, List.count_append, hz.1, hz.2]
      constructor <;> simp [List.count_cons, hj]

theorem close_count_true (ackQ modAckQ : QueueState) (leased : List String)
    (e : CloseEvent) :
    (Subscriber.close true ackQ modAckQ leased).count e
      = [CloseEvent.setClosed, CloseEvent.streamDestroy].count e
        + (if 0 < ackQ.numPendingRequests then
            [CloseEvent.ackOnFlush, CloseEvent.ackFlush].count e else 0)
        + (if 0 < ackQ.numInFlightRequests then
            [CloseEvent.ackOnDrain].count e else 0)
        + (if 0 < modAckQ.numPendingRequests then
            [CloseEvent.modAckOnFlush, CloseEvent.modAckFlush].count e else 0)
        + (if 0 < modAckQ.numInFlightRequests then
            [CloseEvent.modAckOnDrain].count e else 0)
        + [CloseEvent.inventoryClear].count e
        + (leased.flatMap
            (fun i => [CloseEvent.nackMsg i, CloseEvent.shutdownNotify i])).count e
        + [CloseEvent.emitClose].count e := by
  unfold Subscriber.close
  rw [if_neg (by decide : ¬(true = false))]
  simp only [List.count_append, apply_ite (List.count e), List.count_nil]

/-- C4: a `close()` call on an open subscriber completes, before
resolving, exactly one `onFlush` followed by exactly one `flush` for each
of the AckQueue and the ModAckQueue that has pending entries, one
`onDrain` for each queue with in-flight requests, one
`LeaseManager.clear`, and one forced nack plus one shutdown notification
for every still-leased message returned by the clear. -/
theorem close_flushes_and_clears (ackQ modAckQ : QueueState)
    (leased : List String) (hnd : leased.Nodup) :
    (0 < ackQ.numPendingRequests →
      (Subscriber.close true ackQ modAckQ leased).count CloseEvent.ackOnFlush
          = 1
      ∧ (Subscriber.close true ackQ modAckQ leased).count CloseEvent.ackFlush
          = 1
      ∧ ∃ l1 l2, Subscriber.close true ackQ modAckQ leased
          = l1 ++ [CloseEvent.ackOnFlush, CloseEvent.ackFlush] ++ l2)
    ∧ (0 < modAckQ.numPendingRequests →
      (Subscriber.close true ackQ modAckQ leased).count
          CloseEvent.modAckOnFlush = 1
      ∧ (Subscriber.close true ackQ modAckQ leased).count
          CloseEvent.modAckFlush = 1
      ∧ ∃ l1 l2, Subscriber.close true ackQ modAckQ leased
          = l1 ++ [CloseEvent.modAckOnFlush, CloseEvent.modAckFlush] ++ l2)
    ∧ (0 < ackQ.numInFlightRequests →
      (Subscriber.close true ackQ modAckQ leased).count CloseEvent.ackOnDrain
          = 1)
    ∧ (0 < modAckQ.numInFlightRequests →
      (Subscriber.close true ackQ modAckQ leased).count
          CloseEvent.modAckOnDrain = 1)
    ∧ (Subscriber.close true ackQ modAckQ leased).count
        CloseEvent.inventoryClear = 1
    ∧ (∀ i ∈ leased,
        (Subscriber.close true ackQ modAckQ leased).count
            (CloseEvent.nackMsg i) = 1
        ∧ (Subscriber.close true ackQ modAckQ leased).count
            (CloseEvent.shutdownNotify i) = 1) := by
  have z1 := count_nackList_of_ne leased CloseEvent.ackOnFlush
    (by intro j h; cases h) (by intro j h; cases h)
  have z2 := count_nackList_of_ne leased CloseEvent.ackFlush
    (by intro j h; cases h) (by intro j h; cases h)
  have z3 := count_nackList_of_ne leased CloseEvent.ackOnDrain
    (by intro j h; cases h) (by intro j h; cases h)
  have z4 := count_nackList_of_ne leased CloseEvent.modAckOnFlush
    (by intro j h; cases h) (by intro j h; cases h)
  have z5 := count_nackList_of_ne leased CloseEvent.modAckFlush
    (by intro j h; cases h) (by intro j h; cases h)
  have z6 := count_nackList_of_ne leased CloseEvent.modAckOnDrain
    (by intro j h; cases h) (by intro j h; cases h)
  have z7 := count_nackList_of_ne leased CloseEvent.inventoryClear
    (by intro j h; cases h) (by intro j h; cases h)
  refine ⟨?_, ?_, ?_, ?_, ?_, ?_⟩
  · intro hp
    refine ⟨?_, ?_, ?_⟩
    · rw [close_count_true]
      simp [hp, z1]
    · rw [close_count_true]
      simp [hp, z2]
    · refine ⟨[CloseEvent.setClosed, CloseEvent.streamDestroy],
        (if 0 < ackQ.numInFlightRequests then [CloseEvent.ackOnDrain] else [])
          ++ (if 0 < modAckQ.numPendingRequests then
                [CloseEvent.modAckOnFlush, CloseEvent.modAckFlush] else [])
          ++ (if 0 < modAckQ.numInFlightRequests then
                [CloseEvent.modAckOnDrain] else [])
          ++ [CloseEvent.inventoryClear]
          ++ leased.flatMap
              (fun i => [CloseEvent.nackMsg i, CloseEvent.shutdownNotify i])
          ++ [CloseEvent.emitClose], ?_⟩
      simp [Subscriber.close, hp]
  · intro hp
    refine ⟨?_, ?_, ?_⟩
    · rw [close_count_true]
      simp [hp, z4]
    · rw [close_count_true]
      simp [hp, z5]
    · refine ⟨[CloseEvent.setClosed, CloseEvent.streamDestroy]
        ++ (if 0 < ackQ.numPendingRequests then
              [CloseEvent.ackOnFlush, CloseEvent.ackFlush] else [])
        ++ (if 0 < ackQ.numInFlightRequests then
              [CloseEvent.ackOnDrain] else []),
        (if 0 < modAckQ.numInFlightRequests then
            [CloseEvent.modAckOnDrain] else [])
          ++ [CloseEvent.inventoryClear]
          ++ leased.flatMap
              (fun i => [CloseEvent.nackMsg i, CloseEvent.shutdownNotify i])
          ++ [CloseEvent.emitClose], ?_⟩
      simp [Subscriber.close, hp]
  · intro hp
    rw [close_count_true]
    simp [hp, z3]
  · intro hp
    rw [close_count_true]
    simp [hp, z6]
  · rw [close_count_true]
    simp [z7]
  · intro i hm
    have hcnt := count_nackList_mem leased i hnd hm
    constructor
    · rw [close_count_true]
      simp [hcnt.1]
    · rw [close_count_true]
      simp [hcnt.2]

theorem close_flushes_and_clears_witness :
    ((["a"] : List String).Nodup)
    ∧ (0 < (⟨1, 1⟩ : QueueState).numPendingRequests)
    ∧ ((Subscriber.close true ⟨1, 1⟩ ⟨1, 1⟩ ["a"]).count
        CloseEvent.ackOnFlush = 1)
    ∧ ((Subscriber.close true ⟨1, 1⟩ ⟨1, 1⟩ ["a"]).count
        CloseEvent.inventoryClear = 1)
    ∧ ((Subscriber.close true ⟨1, 1⟩ ⟨1, 1⟩ ["a"]).count
        (CloseEvent.nackMsg "a") = 1)
    ∧ ((Subscriber.close true ⟨1, 1⟩ ⟨1, 1⟩ ["a"]).count
        (CloseEvent.shutdownNotify "a") = 1) :=
  ⟨by decide, by decide,
    ((close_flushes_and_clears ⟨1, 1⟩ ⟨1, 1⟩ ["a"] (by decide)).1
      (by decide)).1,
    (close_flushes_and_clears ⟨1, 1⟩ ⟨1, 1⟩ ["a"] (by decide)).2.2.2.2.1,
    ((close_flushes_and_clears ⟨1, 1⟩ ⟨1, 1⟩ ["a"] (by decide)).2.2.2.2.2 "a"
      (by decide)).1,
    ((close_flushes_and_clears ⟨1, 1⟩ ⟨1, 1⟩ ["a"] (by decide)).2.2.2.2.2 "a"
      (by decide)).2⟩

/-- Modelled from the spec: the acknowledgment lifecycle state of the
missing Message class of `subscriber.ts` — Pending, then at most once a
terminal state, Acked or Nacked (spec section 3). -/
inductive MsgLifecycle where
  | pending
  | acked
  | nacked
deriving DecidableEq, Repr

/-- Modelled from the spec: the per-entry outcome delivered to a
response-returning acknowledgment caller — either the resolved ack
response or a permanent-failure rejection carrying the failure kind
(spec sections 4.3 and 7). -/
abbrev AckOutcome := Except AckResponse AckResponse

/-- Modelled from the spec: the mutable acknowledgment-related state of
the missing Message class of `subscriber.ts` — the lifecycle state plus
the memoized settled-outcome cell written exactly once, the first time a
response-returning operation completes (spec sections 3, 4.5 and 9). -/
structure MessageState where
  lifecycle : MsgLifecycle
  responseCache : Option AckOutcome

/-- Modelled from the spec: a delegation call from a Message to its
owning Subscriber (spec section 4.5). -/
inductive Delegation where
  | ack
  | nack
  | modAck (deadline : ℚ)
deriving DecidableEq, Repr

/-- Modelled from the spec (section 4.5): `Message.ack()` of the missing
Message class is a no-op if the lifecycle state is already terminal;
otherwise it delegates to the owning Subscriber and sets the state to
Acked. -/
def Message.ack (m : MessageState) : MessageState × List Delegation :=
  if m.lifecycle = MsgLifecycle.pending then
    ({ m with lifecycle := MsgLifecycle.acked }, [Delegation.ack])
  else
    (m, [])

/-- Modelled from the spec (section 4.5): `Message.nack()` of the missing
Message class is a no-op if the lifecycle state is already terminal;
otherwise it delegates to the owning Subscriber and sets the state to
Nacked. -/
def Message.nack (m : MessageState) : MessageState × List Delegation :=
  if m.lifecycle = MsgLifecycle.pending then
    ({ m with lifecycle := MsgLifecycle.nacked }, [Delegation.nack])
  else
    (m, [])

/-- Modelled from the spec (section 4.5): `Message.modAck(d)` of the
missing Message class is a no-op if the lifecycle state is already
terminal; otherwise it delegates to the owning Subscriber and does not
change the state. -/
def Message.modAck (d : ℚ) (m : MessageState) : MessageState × List Delegation :=
  if m.lifecycle = MsgLifecycle.pending then
    (m, [Delegation.modAck d])
  else
    (m, [])

/-- C7: the lifecycle of a Message moves from Pending to a terminal state
at most once — on a Message already in a terminal state, ack(), nack()
and modAck() are all no-ops producing no delegation call to the owning
Subscriber and leaving the state unchanged. -/
theorem terminal_message_ops_no_delegation (m : MessageState)
    (h : m.lifecycle ≠ MsgLifecycle.pending) :
    Message.ack m = (m, [])
    ∧ Message.nack m = (m, [])
    ∧ ∀ d, Message.modAck d m = (m, []) := by
  refine ⟨?_, ?_, fun d => ?_⟩ <;>
    simp [Message.ack, Message.nack, Message.modAck, h]

theorem terminal_message_ops_no_delegation_witness :
    ((⟨MsgLifecycle.acked, none⟩ : MessageState).lifecycle
        ≠ MsgLifecycle.pending)
    ∧ (Message.ack ⟨MsgLifecycle.acked, none⟩
          = (⟨MsgLifecycle.acked, none⟩, [])
      ∧ Message.nack ⟨MsgLifecycle.acked, none⟩
          = (⟨MsgLifecycle.acked, none⟩, [])
      ∧ ∀ d, Message.modAck d ⟨MsgLifecycle.acked, none⟩
          = (⟨MsgLifecycle.acked, none⟩, [])) :=
  ⟨by decide,
    terminal_message_ops_no_delegation ⟨MsgLifecycle.acked, none⟩ (by decide)⟩

/-- Modelled from the spec (sections 3 and 4.5): `ackWithResponse()` of
the missing Message class — delegate and await the Subscriber's per-entry
outcome (the `outcome` parameter); on first completion cache the resolved
value or rejection in the settled-outcome cell and set the state to
Acked; subsequent calls return the cached outcome without any further
delegation.  The Boolean records whether this call delegated. -/
def Message.ackWithResponse (outcome : AckOutcome) (m : MessageState) :
    MessageState × AckOutcome × Bool :=
  match m.responseCache with
  | some r => (m, r, false)
  | none =>
      ({ lifecycle := MsgLifecycle.acked, responseCache := some outcome },
        outcome, true)

/-- Modelled from the spec (sections 3 and 4.5): `nackWithResponse()` of
the missing Message class, analogous to `ackWithResponse` with terminal
state Nacked. -/
def Message.nackWithResponse (outcome : AckOutcome) (m : MessageState) :
    MessageState × AckOutcome × Bool :=
  match m.responseCache with
  | some r => (m, r, false)
  | none =>
      ({ lifecycle := MsgLifecycle.nacked, responseCache := some outcome },
        outcome, true)

/-- Modelled from the spec (sections 3 and 4.5): `modAckWithResponse(d)`
of the missing Message class — like the other response-returning
operations it memoizes the first settled outcome, and like `modAck` it
does not change a terminal state. -/
def Message.modAckWithResponse (d : ℚ) (outcome : AckOutcome)
    (m : MessageState) : MessageState × AckOutcome × Bool :=
  match m.responseCache with
  | some r => (m, r, false)
  | none => ({ m with responseCache := some outcome }, outcome, true)

/-- C8: once a response-returning acknowledgment operation on a Message
has resolved or rejected, a second call to the same operation returns the
cached outcome — the same resolved value or the same rejection — without
any second delegation to the Subscriber, whatever outcome a renewed
delegation would have produced. -/
theorem withResponse_second_call_cached (m : MessageState)
    (o1 o2 : AckOutcome) (d d2 : ℚ) :
    (Message.ackWithResponse o2 (Message.ackWithResponse o1 m).1
        = ((Message.ackWithResponse o1 m).1,
            (Message.ackWithResponse o1 m).2.1, false))
    ∧ (Message.nackWithResponse o2 (Message.nackWithResponse o1 m).1
        = ((Message.nackWithResponse o1 m).1,
            (Message.nackWithResponse o1 m).2.1, false))
    ∧ (Message.modAckWithResponse d2 o2
          (Message.modAckWithResponse d o1 m).1
        = ((Message.modAckWithResponse d o1 m).1,
            (Message.modAckWithResponse d o1 m).2.1, false)) := by
  cases hm : m.responseCache <;>
    simp [Message.ackWithResponse, Message.nackWithResponse,
      Message.modAckWithResponse, hm]

/-- Modelled from the spec: the option fields consumed by `setOptions` of
the missing `subscriber.ts` that determine the MessageStream's
streaming-pull concurrency — the flow-control maxMessages threshold and
the requested streamingOptions maxStreams (spec sections 3, 4.4 and 6). -/
structure StreamConfigInput where
  flowControlMaxMessages : ℕ
  requestedMaxStreams : ℕ

/-- Modelled from the spec (sections 4.4 and 7): `setOptions` merges new
configuration and clamps maxStreams to never exceed the flow-control
maxMessages; out-of-range values are clamped, never raised as errors, so
the computation is total. -/
def Subscriber.setOptionsMaxStreams (o : StreamConfigInput) : ℕ :=
  min o.requestedMaxStreams o.flowControlMaxMessages

/-- C9: out-of-range configuration is clamped rather than rejected — the
maxStreams value handed to the MessageStream never exceeds
flowControl.maxMessages, and setting maxMessages = 3 (with at least 3
streams requested) yields stream maxStreams = 3; `setOptions` is a total
function, so no input raises an error. -/
theorem setOptions_clamps_maxStreams (o : StreamConfigInput) :
    Subscriber.setOptionsMaxStreams o ≤ o.flowControlMaxMessages
    ∧ (o.flowControlMaxMessages = 3 → 3 ≤ o.requestedMaxStreams →
        Subscriber.setOptionsMaxStreams o = 3) := by
  constructor
  · exact min_le_right _ _
  · intro h3 hr
    simp only [Subscriber.setOptionsMaxStreams, h3]
    omega

theorem setOptions_clamps_maxStreams_witness :
    ((⟨3, 5⟩ : StreamConfigInput).flowControlMaxMessages = 3)
    ∧ (3 ≤ (⟨3, 5⟩ : StreamConfigInput).requestedMaxStreams)
    ∧ Subscriber.setOptionsMaxStreams ⟨3, 5⟩ = 3 :=
  ⟨rfl, by decide,
    (setOptions_clamps_maxStreams ⟨3, 5⟩).2 rfl (by decide)⟩

/-- Modelled from the spec: the name-related state of the missing
`Subscriber` of `subscriber.ts` — the subscription's name, its project
id, and the memoization cell of the computed display name.  The spec
document does not describe the `name` getter; this follows the caching
contract its unit tests exercise (test/subscriber.ts, "name"). -/
structure NameState where
  subscriptionName : String
  projectId : String
  nameCache : Option String
deriving DecidableEq, Repr

/-- Modelled from the spec: the `name` getter of the missing
`Subscriber` (contract taken from its unit tests, spec.md being silent):
on first read delegate to the external project-ID token-replacement
collaborator `repl`, cache the result, and return the cached string on
every later read.  The counter is the number of replacement delegations
performed by this read. -/
def Subscriber.getName (repl : String → String → String) (st : NameState) :
    String × NameState × ℕ :=
  match st.nameCache with
  | some n => (n, st, 0)
  | none =>
      (repl st.subscriptionName st.projectId,
        { st with nameCache := some (repl st.subscriptionName st.projectId) },
        1)

/-- Repeated reads of the `name` property: the list of read results, the
final state, and the total number of replacement delegations. -/
def Subscriber.readNames (repl : String → String → String) (st : NameState) :
    ℕ → List String × NameState × ℕ
  | 0 => ([], st, 0)
  | k + 1 =>
      ((Subscriber.getName repl st).1
          :: (Subscriber.readNames repl (Subscriber.getName repl st).2.1 k).1,
        (Subscriber.readNames repl (Subscriber.getName repl st).2.1 k).2.1,
        (Subscriber.getName repl st).2.2
          + (Subscriber.readNames repl (Subscriber.getName repl st).2.1 k).2.2)

theorem readNames_cached (repl : String → String → String) (st : NameState)
    (n : String) (h : st.nameCache = some n) (k : ℕ) :
    Subscriber.readNames repl st k = (List.replicate k n, st, 0) := by
  induction k with
  | zero => simp [Subscriber.readNames]
  | succ k ih =>
    simp [Subscriber.readNames, Subscriber.getName, h, ih, List.replicate_succ]

/-- C10: the Subscriber's `name` property is memoized — over any positive
number of reads starting from an uncached state, exactly one token
replacement delegation happens in total, and every read returns the
identical replaced string. -/
theorem name_property_memoized (repl : String → String → String)
    (st : NameState) (h : st.nameCache = none) (k : ℕ) :
    (Subscriber.readNames repl st (k + 1)).2.2 = 1
    ∧ ∀ n ∈ (Subscriber.readNames repl st (k + 1)).1,
        n = repl st.subscriptionName st.projectId := by
  have hg : Subscriber.getName repl st
      = (repl st.subscriptionName st.projectId,
          { st with nameCache := some (repl st.subscriptionName st.projectId) },
          1) := by
    simp [Subscriber.getName, h]
  have hc := readNames_cached repl
      { st with nameCache := some (repl st.subscriptionName st.projectId) }
      (repl st.subscriptionName st.projectId) rfl k
  constructor
  · simp [Subscriber.readNames, hg, hc]
  · intro n hn
    simp only [Subscriber.readNames, hg, hc, List.mem_cons] at hn
    rcases hn with rfl | hn
    · rfl
    · exact List.eq_of_mem_replicate hn

theorem name_property_memoized_witness :
    ((⟨"s", "p", none⟩ : NameState).nameCache = none)
    ∧ (Subscriber.readNames (fun a b => String.append a b)
        ⟨"s", "p", none⟩ (1 + 1)).2.2 = 1 :=
  ⟨rfl,
    (name_property_memoized (fun a b => String.append a b)
      ⟨"s", "p", none⟩ rfl 1).1⟩
